import Mathlib

/-!
Verification of `target-salesforce` (hotgluexyz), a Singer target that uploads
records into Salesforce and can discover the object/field catalog.

The development shallowly embeds `target_salesforce/__init__.py`:

* the Singer `metadata` compiled map (breadcrumb -> key -> value) becomes an
  association list with dictionary write/get/delete semantics;
* `get_replication_key`, `create_property_schema`, `generate_schema`,
  `do_discover`, `sort_files`, `generate_ids` and the per-record body of
  `upload_target` become pure functions; network calls (`queryAll`,
  `create_record`, `update_record`) are parameters of a `Client` record that
  maps the request to its response;
* Python exceptions (`StopIteration` from an exhausted `next`, `IndexError`
  from `[0]` on an empty list) become `Except.error`.

`target_salesforce/salesforce/__init__.py` (the `Salesforce` client class,
`field_to_property_schema`, `BULK_API_TYPE`) is not in the source tree; the
few pieces the claims need are modelled from the spec and marked as such.
-/

namespace TargetSalesforce

/-- A single-quote character as a string, used when building SOQL literals. -/
def sq : String := "\x27"

/-! ### Singer metadata model

`singer.metadata` compiles metadata as a dict from breadcrumb (a tuple of
strings, e.g. `('properties', fieldName)` or `()`) to a dict of key/value
pairs.  `write` inserts or replaces one key, `get` looks one up, `delete`
removes one.  We model both dict levels as association lists with
insert-or-replace-in-place semantics, which matches Python dict update
(existing keys keep their position, new keys append). -/

/-- Metadata values that occur in this program: strings (inclusion values,
descriptions), booleans (`selected-by-default`), string lists
(`valid-replication-keys`, `table-key-properties`) and the
forced-replication-method dictionary, whose contents no claim inspects and
which is represented by a single constructor. -/
inductive MVal where
  | s (v : String)
  | b (v : Bool)
  | sl (v : List String)
  | forcedFullTableMethod
deriving DecidableEq, Repr

/-- A metadata breadcrumb: `[]` for object level, `["properties", f]` for a
field. -/
abbrev Breadcrumb := List String

/-- One breadcrumb's key/value dictionary. -/
abbrev MEntry := List (String × MVal)

/-- Compiled metadata: breadcrumb -> entry dictionary. -/
abbrev Mdata := List (Breadcrumb × MEntry)

/-- Insert-or-replace a key in an entry dictionary (Python dict `update`). -/
def updKey : MEntry → String → MVal → MEntry
  | [], k, v => [(k, v)]
  | (k0, v0) :: rest, k, v =>
    if k0 = k then (k0, v) :: rest else (k0, v0) :: updKey rest k v

/-- Remove a key from an entry dictionary (Python `del`, a no-op here when the
key is absent; the source only deletes keys it just observed present). -/
def delKey : MEntry → String → MEntry
  | [], _ => []
  | (k0, v0) :: rest, k =>
    if k0 = k then rest else (k0, v0) :: delKey rest k

/-- Look a key up in an entry dictionary. -/
def getKey : MEntry → String → Option MVal
  | [], _ => none
  | (k0, v0) :: rest, k => if k0 = k then some v0 else getKey rest k

/-- `singer.metadata.write`: set `k := v` under breadcrumb `c`. -/
def mwrite : Mdata → Breadcrumb → String → MVal → Mdata
  | [], c, k, v => [(c, [(k, v)])]
  | (c0, e0) :: rest, c, k, v =>
    if c0 = c then (c0, updKey e0 k v) :: rest else (c0, e0) :: mwrite rest c k v

/-- `singer.metadata.get`: look up key `k` under breadcrumb `c`. -/
def mget : Mdata → Breadcrumb → String → Option MVal
  | [], _, _ => none
  | (c0, e0) :: rest, c, k => if c0 = c then getKey e0 k else mget rest c k

/-- `singer.metadata.delete`: remove key `k` under breadcrumb `c`. -/
def mdelete : Mdata → Breadcrumb → String → Mdata
  | [], _, _ => []
  | (c0, e0) :: rest, c, k =>
    if c0 = c then (c0, delKey e0 k) :: rest else (c0, e0) :: mdelete rest c k

/-- Python truthiness of `metadata.get(...)`: only a present `True` counts
(the program writes no other `selected-by-default` value). -/
def mtruthy : Option MVal → Bool
  | some (.b true) => true
  | some (.s v) => v ≠ ""
  | some (.sl l) => l ≠ []
  | some .forcedFullTableMethod => true
  | some (.b false) => false
  | none => false

/-- Well-formedness of compiled metadata: breadcrumbs are pairwise distinct
and each breadcrumb's keys are pairwise distinct — i.e. it really is a
two-level dictionary, so every field path carries at most one value per key. -/
def MdataWF (m : Mdata) : Prop :=
  (m.map Prod.fst).Nodup ∧ ∀ ce ∈ m, (ce.2.map Prod.fst).Nodup

/-! ### Salesforce catalog data -/

/-- A field descriptor as returned by `describe`: the keys of the Python
field dict that this program reads (`name`, `type`, `externalId`,
`relationshipName`, `referenceTo`). -/
structure Field where
  name : String
  ftype : String
  externalId : Bool := false
  relationshipName : Option String := none
  referenceTo : List String := []
deriving DecidableEq, Repr

/-- An sobject description: the keys of `sf.describe(name)` that this program
reads (`customSetting`, `fields`). -/
structure SObjectDescription where
  customSetting : Bool := false
  fields : List Field := []

/-- The slice of the `Salesforce` client object that `do_discover` and
`generate_schema` consume.  The class itself lives in the
`target_salesforce.salesforce` module, which is outside the given source
tree; each member here is the interface value the main module reads
(`api_type`, `select_fields_by_default`, `get_blacklisted_fields()`,
`get_blacklisted_objects()`, `describe()`, and the Bulk permission probe). -/
structure SfClient where
  apiType : String
  selectFieldsByDefault : Bool
  blacklistedFields : List ((String × String) × String) := []
  blacklistedObjects : List String := []
  sobjectNames : List String := []
  describeSObject : String → SObjectDescription := fun _ => {}
  bulkHasPermissions : Bool := true

/-- Lookup in the blacklisted-fields table keyed by `(objectName, fieldName)`. -/
def blacklistReason (sf : SfClient) (pair : String × String) : Option String :=
  (sf.blacklistedFields.find? (fun e => e.1 = pair)).map Prod.snd

/-- Modelled from the spec: `BULK_API_TYPE` is a constant of the missing
`target_salesforce.salesforce` module; `do_discover` compares
`sf.api_type == 'BULK'` directly, fixing its value. -/
def BULK_API_TYPE : String := "BULK"

/-! ### get_replication_key -/

/-- The `FORCED_FULL_TABLE` set. -/
def FORCED_FULL_TABLE : List String :=
  ["BackgroundOperationResult", "LoginEvent"]

/-- `get_replication_key(sobject_name, fields)`. -/
def get_replication_key (sobject_name : String) (fields : List Field) :
    Option String :=
  if sobject_name ∈ FORCED_FULL_TABLE then none
  else
    let fields_list := fields.map Field.name
    if "SystemModstamp" ∈ fields_list then some "SystemModstamp"
    else if "LastModifiedDate" ∈ fields_list then some "LastModifiedDate"
    else if "CreatedDate" ∈ fields_list then some "CreatedDate"
    else if "LoginTime" ∈ fields_list ∧ sobject_name = "LoginHistory" then
      some "LoginTime"
    else none

/-! ### generate_schema -/

/-- Modelled from the spec: `field_to_property_schema` lives in
`target_salesforce/salesforce/__init__.py`, which is missing from the source
tree.  Per §4.1 the classifier returns a property schema for the field while
the inclusion/selection metadata handled here is written by the caller, so
the model derives an opaque property schema from the field's type and leaves
the metadata untouched. -/
def field_to_property_schema (f : Field) (mdata : Mdata) : String × Mdata :=
  (f.ftype, mdata)

/-- `create_property_schema(field, mdata)`: write inclusion `automatic` for
`Id`, `available` otherwise, then delegate to `field_to_property_schema`. -/
def create_property_schema (f : Field) (mdata : Mdata) : String × Mdata :=
  let mdata :=
    mwrite mdata ["properties", f.name] "inclusion"
      (.s (if f.name = "Id" then "automatic" else "available"))
  field_to_property_schema f mdata

/-- Accumulator of the per-field loop in `generate_schema`: the
`unsupported_fields` set, the metadata, and the `properties` dict.  The
Python set of `(name, reason)` pairs is modelled as a deduplicating
insertion-ordered list; no claim depends on set iteration order. -/
structure GsState where
  uns : List (String × String)
  mdata : Mdata
  props : List (String × String)

/-- Add a pair to the modelled `unsupported_fields` set. -/
def unsAdd (l : List (String × String)) (p : String × String) :
    List (String × String) :=
  if p ∈ l then l else l ++ [p]

/-- One iteration of the per-field loop of `generate_schema` (source lines
86–116). -/
def stepField (sf : SfClient) (sobject_name : String) (st : GsState)
    (f : Field) : GsState :=
  let (property_schema, mdata) := create_property_schema f st.mdata
  let uns :=
    if (f.ftype = "address" ∨ f.ftype = "location") ∧ sf.apiType = BULK_API_TYPE
    then
      unsAdd st.uns
        (f.name, "cannot query compound address fields or geolocations with bulk API")
    else st.uns
  let uns :=
    if f.ftype = "json" then
      unsAdd uns
        (f.name, "do not currently support json fields - please contact support")
    else uns
  let uns :=
    match blacklistReason sf (sobject_name, f.name) with
    | some reason => unsAdd uns (f.name, reason)
    | none => uns
  let inclusion := mget mdata ["properties", f.name] "inclusion"
  let mdata :=
    if sf.selectFieldsByDefault ∧ inclusion ≠ some (.s "unsupported") then
      mwrite mdata ["properties", f.name] "selected-by-default" (.b true)
    else mdata
  { uns := uns, mdata := mdata, props := st.props ++ [(f.name, property_schema)] }

/-- The per-field loop of `generate_schema`. -/
def schemaLoop (sf : SfClient) (sobject_name : String) :
    List Field → GsState → GsState
  | [], st => st
  | f :: fs, st => schemaLoop sf sobject_name fs (stepField sf sobject_name st f)

/-- One iteration of the unsupported-fields loop (source lines 140–149):
delete a truthy `selected-by-default`, then write the description and the
`unsupported` inclusion. -/
def unsStep (prop description : String) (mdata : Mdata) : Mdata :=
  let mdata :=
    if mtruthy (mget mdata ["properties", prop] "selected-by-default") then
      mdelete mdata ["properties", prop] "selected-by-default"
    else mdata
  let mdata :=
    mwrite mdata ["properties", prop] "unsupported-description" (.s description)
  mwrite mdata ["properties", prop] "inclusion" (.s "unsupported")

/-- The unsupported-fields loop of `generate_schema`. -/
def unsLoop : List (String × String) → Mdata → Mdata
  | [], mdata => mdata
  | (prop, description) :: rest, mdata => unsLoop rest (unsStep prop description mdata)

/-- A discovery output entry (`metadata.to_list` reformats the compiled map
entry-by-entry, so the compiled map is kept). -/
structure SchemaEntry where
  stream : String
  tap_stream_id : String
  properties : List (String × String)
  mdataList : Mdata

/-- `generate_schema(fields, sf, sobject_name, replication_key)`. -/
def generate_schema (fields : List Field) (sf : SfClient)
    (sobject_name : String) (replication_key : Option String) : SchemaEntry :=
  let st := schemaLoop sf sobject_name fields ⟨[], [], []⟩
  let mdata :=
    match replication_key with
    | some rk => mwrite st.mdata ["properties", rk] "inclusion" (.s "automatic")
    | none => st.mdata
  let field_name_set := fields.map Field.name
  let filtered_unsupported_fields :=
    st.uns.filter (fun p => p.1 ∈ field_name_set)
  let mdata := unsLoop filtered_unsupported_fields mdata
  let mdata :=
    match replication_key with
    | some rk => mwrite mdata [] "valid-replication-keys" (.sl [rk])
    | none => mwrite mdata [] "forced-replication-method" .forcedFullTableMethod
  let mdata := mwrite mdata [] "table-key-properties" (.sl ["Id"])
  { stream := sobject_name
    tap_stream_id := sobject_name
    properties := st.props
    mdataList := mdata }

/-! ### do_discover -/

/-- Python `str.endswith` on the underlying character lists. -/
def pyEndsWith (s suffix : String) : Bool := suffix.data.isSuffixOf s.data

/-- Lexicographic comparison of character lists by code point — the order
Python's `sorted` applies to strings. -/
def charListLe : List Char → List Char → Bool
  | [], _ => true
  | _ :: _, [] => false
  | a :: as, b :: bs =>
    if a.toNat = b.toNat then charListLe as bs
    else decide (a.toNat < b.toNat)

/-- Python string `<=`. -/
def pyStrLe (a b : String) : Bool := charListLe a.data b.data

/-- Deduplication, as `set(...)` does before `sorted` normalizes the order
(which occurrences survive is irrelevant after sorting). -/
def pyDedup : List String → List String
  | [] => []
  | a :: l => if l.contains a then pyDedup l else a :: pyDedup l

/-- Insert-or-replace in the `object_to_tag_references` dict
(`{"Object": "Object__Tag"}`, Python dict assignment). -/
def insertRef : List (String × String) → String → String → List (String × String)
  | [], base, tag => [(base, tag)]
  | (b0, t0) :: rest, base, tag =>
    if b0 = base then (b0, tag) :: rest else (b0, t0) :: insertRef rest base tag

/-- Dict lookup in `object_to_tag_references`. -/
def lookupRef : List (String × String) → String → Option String
  | [], _ => none
  | (b0, t0) :: rest, base => if b0 = base then some t0 else lookupRef rest base

/-- Accumulator of the discovery loop: `sf_custom_setting_objects`,
`object_to_tag_references`, `entries`. -/
structure DiscoverState where
  customSettings : List String := []
  tagRefs : List (String × String) := []
  entries : List SchemaEntry := []

/-- The custom-setting/tag caching part of the loop body (source lines
210–219): record custom-setting objects, and for a `__Tag` object with an
`Item` relationship, map the first referenced object to the tag.  A `__Tag`
object whose `Item` relationship field has an empty `referenceTo` list would
raise `IndexError` at `["referenceTo"][0]`; that becomes `Except.error`. -/
def tagPhase (sf : SfClient) (sobject_name : String) (st : DiscoverState) :
    Except String DiscoverState :=
  let d := sf.describeSObject sobject_name
  if d.customSetting then
    .ok { st with customSettings := st.customSettings ++ [sobject_name] }
  else if pyEndsWith sobject_name "__Tag" then
    match d.fields.find? (fun f => f.relationshipName = some "Item") with
    | some relationship_field =>
      match relationship_field.referenceTo.head? with
      | some base =>
        .ok { st with tagRefs := insertRef st.tagRefs base sobject_name }
      | none => .error "IndexError"
    | none => .ok st
  else .ok st

/-- One iteration of the per-object loop of `do_discover` (source lines
198–232): skip blacklisted and ChangeEvent objects, run the caching phase,
then — unless the object lacks an `Id` field — append its schema entry. -/
def discoverStep (sf : SfClient) (sobject_name : String) (st : DiscoverState) :
    Except String DiscoverState :=
  if sobject_name ∈ sf.blacklistedObjects ∨
      pyEndsWith sobject_name "ChangeEvent"
  then
    .ok st
  else
    match tagPhase sf sobject_name st with
    | .error e => .error e
    | .ok st =>
      let d := sf.describeSObject sobject_name
      let replication_key := get_replication_key sobject_name d.fields
      if (d.fields.filter (fun f => f.name = "Id")).isEmpty then .ok st
      else
        .ok { st with
          entries :=
            st.entries ++ [generate_schema d.fields sf sobject_name replication_key] }

/-- The per-object loop of `do_discover`. -/
def discoverLoop (sf : SfClient) :
    List String → DiscoverState → Except String DiscoverState
  | [], st => .ok st
  | sobject_name :: names, st =>
    match discoverStep sf sobject_name st with
    | .error e => .error e
    | .ok st => discoverLoop sf names st

/-- The scan part of `do_discover`: sorted deduplicated object names (Python
`sorted({...})`), the Bulk-permission check, then the per-object loop. -/
def discoverScan (sf : SfClient) : Except String DiscoverState :=
  if sf.apiType = "BULK" ∧ ¬ sf.bulkHasPermissions then
    .error "TapSalesforceBulkAPIDisabledException"
  else
    discoverLoop sf
      (List.insertionSort (fun a b => pyStrLe a b = true)
        (pyDedup sf.sobjectNames)) {}

/-- `do_discover(sf)`, up to JSON serialization to stdout: the scan followed
by removal of tag objects whose base object is a custom setting.  The source
guards the removal with `if unsupported_tag_objects:`, which only changes
logging — filtering by an empty list is the identity. -/
def do_discover (sf : SfClient) : Except String (List SchemaEntry) :=
  (discoverScan sf).map (fun st =>
    let unsupported_tag_objects :=
      st.customSettings.filterMap (fun f => lookupRef st.tagRefs f)
    st.entries.filter (fun e => ¬ e.stream ∈ unsupported_tag_objects))

/-! ### sort_files -/

/-- Contiguous-sublist test on character lists. -/
def charsInfix (p : List Char) : List Char → Bool
  | [] => p.isEmpty
  | c :: rest => p.isPrefixOf (c :: rest) || charsInfix p rest

/-- Python's substring test `priority in file` on the underlying character
lists. -/
def isSubstr (p s : String) : Bool := charsInfix p.data s.data

/-- The priority loop of `sort_files`: for each priority name, move the first
file whose name contains it from the remaining list to the priority list
(`payloads_files.pop(payloads_files.index(file[0]))` pops exactly the first
match, since no earlier equal string can fail the containment test).
Returns (remaining files, priority files). -/
def sortFilesLoop : List String → List String → List String →
    List String × List String
  | [], files, prio => (files, prio)
  | p :: ps, files, prio =>
    match files.find? (fun f => isSubstr p f) with
    | some f => sortFilesLoop ps (files.eraseP (fun f => isSubstr p f)) (prio ++ [f])
    | none => sortFilesLoop ps files prio

/-- `sort_files(payloads_files, priority_list)`. -/
def sort_files (payloads_files priority_list : List String) : List String :=
  let (remaining, priority_files) := sortFilesLoop priority_list payloads_files []
  let regular_files := remaining.filter (fun f => !(priority_files.contains f))
  priority_files ++ regular_files

/-- `PRIORITY_LIST`. -/
def PRIORITY_LIST : List String := ["Account", "Contact"]

/-! ### Records and the upload path -/

/-- A JSON value as far as this program inspects one: `generate_ids` branches
on `type(v) == dict`, so values are split into nested mappings (`obj`) and
scalars.  String and integer scalars are enough for every claim; other
scalar shapes behave exactly like these two (they only ever pass through or
get rendered into a query string). -/
inductive JVal where
  | s (v : String)
  | n (v : Int)
  | obj (fields : List (String × JVal))

/-- A record: an ordered mapping from field name to value (`json.load` of an
input payload element). -/
abbrev Record := List (String × JVal)

/-- First-occurrence key lookup (Python `dict.get`; input dicts have unique
keys). -/
def rlookup : Record → String → Option JVal
  | [], _ => none
  | (k0, v0) :: rest, k => if k0 = k then some v0 else rlookup rest k

/-- Python `str()` of a value interpolated into an f-string query.  A nested
dict would render as its Python repr; no claim depends on that rendering, so
it is abstracted to a marker. -/
def renderJVal : JVal → String
  | .s v => v
  | .n v => toString v
  | .obj _ => "<dict>"

/-- Rendering of `update_item.get(eid)` (Python renders `None` for a missing
key). -/
def renderOptJVal : Option JVal → String
  | none => "None"
  | some v => renderJVal v

/-- One row of a `queryAll` result: the program reads `res["Id"]` and
`res["attributes"]["url"]`. -/
structure Row where
  id : String
  url : String

/-- An HTTP response to a write: the program reads `res.status_code` and
`res.json()[0].get('message')` (the first structured error message, when
asked for). -/
structure HResp where
  status : Nat
  firstError : Option String := none

/-- The slice of the authenticated client the upload path consumes.  The
boilerplate around each query (`instance_url`, `/services/data/v41.0/queryAll`,
headers, `{"q": query}` params) is constant, so a query is identified by its
SOQL string; `_sync_records` yields rows lazily and the program only ever
takes the first, so a result is a row list consumed via `head?`. -/
structure Client where
  queryAll : String → List Row
  updateRecord : String → Record → HResp
  createRecord : String → Record → HResp

/-- Strip `pat` from the front of a character list, returning the remainder
when it is a prefix. -/
def stripPfx : List Char → List Char → Option (List Char)
  | [], s => some s
  | _ :: _, [] => none
  | p :: ps, c :: cs => if p = c then stripPfx ps cs else none

/-- Python `str.replace` on character lists: replace non-overlapping
occurrences left to right.  Structural recursion on a fuel bounded by the
list length (each step consumes at least one character for a non-empty
pattern, the only way the program calls it). -/
def replaceFuel (pat rep : List Char) : Nat → List Char → List Char
  | _, [] => []
  | 0, s => s
  | fuel + 1, c :: rest =>
    match stripPfx pat (c :: rest) with
    | some rem => rep ++ replaceFuel pat rep fuel rem
    | none => c :: replaceFuel pat rep fuel rest

/-- Python `s.replace(pat, rep)` for a non-empty `pat`. -/
def pyReplace (s pat rep : String) : String :=
  ⟨replaceFuel pat.data rep.data s.data.length s.data⟩

/-- The SOQL query built by `generate_ids` for field `k` holding the nested
pair `(field, v)`: the target object is `k.replace("Id", "")`, which removes
every occurrence of `"Id"`. -/
def idLookupQuery (k field : String) (v : JVal) : String :=
  "SELECT Id FROM " ++ pyReplace k "Id" "" ++ " WHERE " ++ field ++ " = " ++
    sq ++ renderJVal v ++ sq

/-- `generate_ids(client, item)`: replace each nested-dict value by the `Id`
of the first row of a point lookup.  `list(v.items())[0]` on an empty dict
raises `IndexError`; an exhausted `next(...)` raises `StopIteration`. -/
def generate_ids (client : Client) : Record → Except String Record
  | [] => .ok []
  | (k, JVal.obj inner) :: rest =>
    match inner with
    | [] => .error "IndexError"
    | (field, external_id) :: _ =>
      match (client.queryAll (idLookupQuery k field external_id)).head? with
      | none => .error "StopIteration"
      | some res => (generate_ids client rest).map (fun r => (k, JVal.s res.id) :: r)
  | (k, v) :: rest => (generate_ids client rest).map (fun r => (k, v) :: r)

/-- Outcome of one submission, as classified by the warning logic. -/
inductive Outcome where
  | objectNotFound
  | invalidPayloadMsg (msg : Option String)
  | invalidPayload
  | success
deriving DecidableEq, Repr

/-- Response classification on the update path (source lines 337–342):
`404`, then `400`, then `> 300`, else fall through with no warning. -/
def classify_update (status : Nat) (firstError : Option String) : Outcome :=
  if status = 404 then .objectNotFound
  else if status = 400 then .invalidPayloadMsg firstError
  else if status > 300 then .invalidPayload
  else .success

/-- Response classification on the create path (source lines 347–352):
`404`, then `400`, then any status `≠ 200`. -/
def classify_create (status : Nat) (firstError : Option String) : Outcome :=
  if status = 404 then .objectNotFound
  else if status = 400 then .invalidPayloadMsg firstError
  else if status ≠ 200 then .invalidPayload
  else .success

/-- The update-or-create action taken for one record. -/
inductive SubAction where
  | updateAct (endpoint : String)
  | createAct (sobjectName : String)

/-- What one record's processing submitted: the action, the record value that
was serialized as the request body, and the classified outcome. -/
structure Submission where
  action : SubAction
  payload : Record
  outcome : Outcome

/-- The match query of `upload_target` for external-id field `eid` (source
line 326), built from the resolved copy `update_item`. -/
def matchQuery (sobjectName eid : String) (update_item : Record) : String :=
  "SELECT Id, " ++ eid ++ " FROM " ++ sobjectName ++ " WHERE " ++ eid ++
    " = " ++ sq ++ renderOptJVal (rlookup update_item eid) ++ sq ++
    " AND IsDeleted=false"

/-- The `for eid in external_id` loop (source lines 325–332): first query
that returns a row wins; `next(..., False)` turns an empty result into
falsity, i.e. `none`. -/
def findFirstMatch (client : Client) (sobjectName : String)
    (update_item : Record) : List String → Option Row
  | [] => none
  | eid :: rest =>
    match (client.queryAll (matchQuery sobjectName eid update_item)).head? with
    | some res => some res
    | none => findFirstMatch client sobjectName update_item rest

/-- The create submission (source lines 344–352): serialize the original
`item` and classify the response. -/
def submit_create (client : Client) (sobjectName : String) (item : Record) :
    Submission :=
  let res := client.createRecord sobjectName item
  { action := .createAct sobjectName
    payload := item
    outcome := classify_create res.status res.firstError }

/-- The body of `for item in payload` in `upload_target` (source lines
319–352).  When the record has at least one external-id key: run
`generate_ids` on `item.copy()` (copying is implicit for immutable values),
look for an existing record using the resolved copy, and on a match submit
`json.dumps(item)` — the original record — as an update; otherwise fall
through to the create submission, again of the original record. -/
def process_item (client : Client) (sobjectName : String)
    (external_ids : List String) (item : Record) : Except String Submission :=
  let external_id := (item.map Prod.fst).filter (fun i => external_ids.contains i)
  if external_id.isEmpty then .ok (submit_create client sobjectName item)
  else
    match generate_ids client item with
    | .error e => .error e
    | .ok update_item =>
      match findFirstMatch client sobjectName update_item external_id with
      | some res =>
        let endpoint := String.intercalate "/" ((res.url.splitOn "/").drop 4)
        let resp := client.updateRecord endpoint item
        .ok { action := .updateAct endpoint
              payload := item
              outcome := classify_update resp.status resp.firstError }
      | none => .ok (submit_create client sobjectName item)

/-- `upload_target`'s per-file loop over the payload: records are processed
sequentially and an exception from `generate_ids` aborts the run. -/
def uploadItems (client : Client) (sobjectName : String)
    (external_ids : List String) : List Record → Except String (List Submission)
  | [] => .ok []
  | item :: rest =>
    match process_item client sobjectName external_ids item with
    | .error e => .error e
    | .ok sub => (uploadItems client sobjectName external_ids rest).map (sub :: ·)

/-- `upload_target(client, payload_file, sobject)` with the payload already
parsed: `external_ids = [f.name for f in sobject.fields if f.externalId]`,
then the per-record loop. -/
def upload_target (client : Client) (payload : List Record)
    (sobjectName : String) (sobjectFields : List Field) :
    Except String (List Submission) :=
  let external_ids := (sobjectFields.filter Field.externalId).map Field.name
  uploadItems client sobjectName external_ids payload

/-! ### Helper lemmas on the upload path -/

/-- Any successful per-record processing submits exactly the original record:
both the update branch and both create branches carry `item` as payload. -/
theorem processItem_ok_payload (client : Client) (sobjectName : String)
    (external_ids : List String) (item : Record) (sub : Submission)
    (h : process_item client sobjectName external_ids item = Except.ok sub) :
    sub.payload = item := by
  simp only [process_item] at h
  by_cases hemp :
      (List.filter (fun i => external_ids.contains i)
        (List.map Prod.fst item)).isEmpty = true
  · rw [if_pos hemp] at h
    cases h
    rfl
  · rw [if_neg hemp] at h
    cases hg : generate_ids client item with
    | error e =>
      simp only [hg] at h
      exact Except.noConfusion h
    | ok update_item =>
      simp only [hg] at h
      cases hm : findFirstMatch client sobjectName update_item
          (List.filter (fun i => external_ids.contains i)
            (List.map Prod.fst item)) with
      | some res =>
        rw [hm] at h
        cases h
        rfl
      | none =>
        rw [hm] at h
        cases h
        rfl

/-- When the record has an external-id key, a `generate_ids` failure is the
result of the whole per-record processing. -/
theorem processItem_error_of_generateIds (client : Client) (sobjectName : String)
    (external_ids : List String) (item : Record) (e : String)
    (hext : ((item.map Prod.fst).filter (fun i => external_ids.contains i)).isEmpty = false)
    (hg : generate_ids client item = Except.error e) :
    process_item client sobjectName external_ids item = Except.error e := by
  simp only [process_item]
  rw [if_neg (by rw [hext]; exact Bool.false_ne_true), hg]

/-! ### C1 — response classification -/

/-- C1 (counterexample): the claim says classification is identical on the
create and update submission paths and that every 2xx status yields a success
outcome with no warning.  At status 201 the create path logs a generic
invalid-payload warning (`res.status_code != 200`) while the update path
logs nothing (`res.status_code > 300` is false); at status 300 the update
path also logs nothing although the claim requires a warning for every
status ≥ 300. -/
theorem c1_response_classification_cex :
    classify_create 201 none = Outcome.invalidPayload ∧
    classify_update 201 none = Outcome.success ∧
    classify_update 300 none = Outcome.success := by
  decide

/-- C1 (amended): the two paths agree at 404 (object-not-found, warn), at 400
(invalid payload carrying the first structured error message, warn), above
300 (generic invalid payload, warn) and at exactly 200 (success, no
warning); for every other status — 1xx, 201–299 and 300 — the update path
reports success with no warning while the create path reports a generic
invalid payload. -/
theorem c1_response_classification_amended (status : Nat)
    (firstError : Option String) :
    (status = 404 →
      classify_update status firstError = Outcome.objectNotFound ∧
      classify_create status firstError = Outcome.objectNotFound) ∧
    (status = 400 →
      classify_update status firstError = Outcome.invalidPayloadMsg firstError ∧
      classify_create status firstError = Outcome.invalidPayloadMsg firstError) ∧
    (status > 300 ∧ status ≠ 404 ∧ status ≠ 400 →
      classify_update status firstError = Outcome.invalidPayload ∧
      classify_create status firstError = Outcome.invalidPayload) ∧
    (status = 200 →
      classify_update status firstError = Outcome.success ∧
      classify_create status firstError = Outcome.success) ∧
    (status ≤ 300 ∧ status ≠ 200 →
      classify_update status firstError = Outcome.success ∧
      classify_create status firstError = Outcome.invalidPayload) := by
  unfold classify_update classify_create
  refine ⟨?_, ?_, ?_, ?_, ?_⟩
  · rintro rfl
    exact ⟨rfl, rfl⟩
  · rintro rfl
    exact ⟨rfl, rfl⟩
  · rintro ⟨h300, h404, h400⟩
    rw [if_neg h404, if_neg h400, if_pos h300, if_neg h404, if_neg h400,
      if_pos (by omega : status ≠ 200)]
    exact ⟨rfl, rfl⟩
  · rintro rfl
    exact ⟨rfl, rfl⟩
  · rintro ⟨hle, hne⟩
    rw [if_neg (by omega : ¬ status = 404), if_neg (by omega : ¬ status = 400),
      if_neg (by omega : ¬ status > 300), if_neg (by omega : ¬ status = 404),
      if_neg (by omega : ¬ status = 400), if_pos hne]
    exact ⟨rfl, rfl⟩

/-- C1 (amended, witness): concrete instances — 404 on the update path is an
object-not-found outcome, and 201 on the create path is a generic
invalid-payload outcome. -/
theorem c1_response_classification_amended_witness :
    classify_update 404 none = Outcome.objectNotFound ∧
    classify_create 201 none = Outcome.invalidPayload :=
  ⟨((c1_response_classification_amended 404 none).1 rfl).1,
   ((c1_response_classification_amended 201 none).2.2.2.2
      ⟨by omega, by omega⟩).2⟩

/-! ### C4 — target object derivation in generate_ids -/

/-- Client for the C4 counterexample: only the query against the
suffix-stripped object name `Idea` would find a row; every other query —
including the one the code actually issues, against `ea` — returns none. -/
def clC4 : Client :=
  { queryAll := fun q =>
      if q = "SELECT Id FROM Idea WHERE Ext__c = \x27X1\x27" then
        [{ id := "IDEA1", url := "/services/data/v41.0/sobjects/Idea/IDEA1" }]
      else []
    updateRecord := fun _ _ => { status := 200 }
    createRecord := fun _ _ => { status := 200 } }

/-- C4 (counterexample): the claim says the target object name is derived by
stripping the conventional `Id` suffix, leaving the rest of the field name
intact.  The code runs `k.replace("Id", "")`, which removes every occurrence
of `Id`: for the field `IdeaId` it queries the object `ea` instead of
`Idea`, so against a store where `Idea` holds the matching row the resolver
exhausts and errors instead of resolving. -/
theorem c4_target_object_cex :
    idLookupQuery "IdeaId" "Ext__c" (JVal.s "X1") =
      "SELECT Id FROM ea WHERE Ext__c = \x27X1\x27" ∧
    pyReplace "IdeaId" "Id" "" ≠ "Idea" ∧
    (clC4.queryAll "SELECT Id FROM Idea WHERE Ext__c = \x27X1\x27").length = 1 ∧
    generate_ids clC4 [("IdeaId", JVal.obj [("Ext__c", JVal.s "X1")])] =
      Except.error "StopIteration" :=
  ⟨by decide, by decide, by decide, rfl⟩

/-- C4 (amended): for a field whose value is a one-pair nested mapping, the
resolver issues the point lookup `SELECT Id FROM <object> WHERE <field> =
<value>` where the object name is the field name with every occurrence of
`Id` removed (for a conventional name this strips the suffix), and replaces
the nested mapping with the identifier of the first returned row. -/
theorem c4_target_object_amended (client : Client) (k field : String)
    (v : JVal) (rest : Record) (res : Row) (more : List Row)
    (h : client.queryAll (idLookupQuery k field v) = res :: more) :
    idLookupQuery k field v =
      "SELECT Id FROM " ++ pyReplace k "Id" "" ++ " WHERE " ++ field ++ " = " ++
        sq ++ renderJVal v ++ sq ∧
    generate_ids client ((k, JVal.obj [(field, v)]) :: rest) =
      (generate_ids client rest).map (fun r => (k, JVal.s res.id) :: r) := by
  refine ⟨rfl, ?_⟩
  simp only [generate_ids, h, List.head?_cons]

/-- Client for the C4 amended witness. -/
def clC4w : Client :=
  { queryAll := fun q =>
      if q = idLookupQuery "AccountId" "Ext__c" (JVal.s "X1") then
        [{ id := "A1", url := "/u" }]
      else []
    updateRecord := fun _ _ => { status := 200 }
    createRecord := fun _ _ => { status := 200 } }

/-- C4 (amended, witness): a conventional `AccountId` reference resolves to
the first returned identifier via the `Account` lookup. -/
theorem c4_target_object_amended_witness :
    generate_ids clC4w [("AccountId", JVal.obj [("Ext__c", JVal.s "X1")])] =
      Except.ok [("AccountId", JVal.s "A1")] :=
  ((c4_target_object_amended clC4w "AccountId" "Ext__c" (JVal.s "X1") []
      { id := "A1", url := "/u" } [] rfl).2).trans rfl

/-! ### C5 — replication key resolution -/

/-- C5 (confirmed): `get_replication_key` returns none for every object in
the forced-full-table set regardless of fields; otherwise it follows the
SystemModstamp, LastModifiedDate, CreatedDate, LoginTime-for-LoginHistory
precedence; and it never returns a field name absent from the object's
field set. -/
theorem c5_replication_key (sobject_name : String) (fields : List Field) :
    (sobject_name ∈ FORCED_FULL_TABLE →
      get_replication_key sobject_name fields = none) ∧
    (sobject_name ∉ FORCED_FULL_TABLE →
      get_replication_key sobject_name fields =
        (if "SystemModstamp" ∈ fields.map Field.name then some "SystemModstamp"
         else if "LastModifiedDate" ∈ fields.map Field.name then
           some "LastModifiedDate"
         else if "CreatedDate" ∈ fields.map Field.name then some "CreatedDate"
         else if "LoginTime" ∈ fields.map Field.name ∧
             sobject_name = "LoginHistory" then some "LoginTime"
         else none)) ∧
    (∀ k, get_replication_key sobject_name fields = some k →
      k ∈ fields.map Field.name) := by
  refine ⟨fun h => by simp [get_replication_key, h], fun h => by
    simp [get_replication_key, h], fun k hk => ?_⟩
  simp only [get_replication_key] at hk
  split_ifs at hk with h1 h2 h3 h4 h5
  · cases hk
    exact h2
  · cases hk
    exact h3
  · cases hk
    exact h4
  · cases hk
    exact h5.1

/-- C5 (witness): `LoginEvent` is forced full-table even though it has
`SystemModstamp`; an ordinary object with only `CreatedDate` resolves to
`CreatedDate`. -/
theorem c5_replication_key_witness :
    get_replication_key "LoginEvent"
      [{ name := "SystemModstamp", ftype := "datetime" }] = none ∧
    get_replication_key "Contact"
      [{ name := "CreatedDate", ftype := "datetime" }] = some "CreatedDate" :=
  ⟨(c5_replication_key "LoginEvent" _).1 (by decide),
   ((c5_replication_key "Contact" _).2.1 (by decide)).trans (by decide)⟩

/-! ### C8 — lookup exhaustion -/

/-- C8 (confirmed): when a record carries an external-id key and its nested
reference's lookup query returns no rows, the exhausted `next` surfaces as a
`StopIteration` error from the whole per-record processing — no submission
is produced for the record. -/
theorem c8_lookup_exhaustion (client : Client) (sobjectName : String)
    (external_ids : List String) (k field : String) (v : JVal) (rest : Record)
    (hext : ((((k, JVal.obj [(field, v)]) :: rest).map Prod.fst).filter
        (fun i => external_ids.contains i)).isEmpty = false)
    (hq : client.queryAll (idLookupQuery k field v) = []) :
    process_item client sobjectName external_ids
        ((k, JVal.obj [(field, v)]) :: rest) =
      Except.error "StopIteration" := by
  refine processItem_error_of_generateIds client sobjectName external_ids _ _
    hext ?_
  simp only [generate_ids, hq, List.head?_nil]

/-- Client for the C8 witness: every query returns no rows. -/
def clC8 : Client :=
  { queryAll := fun _ => []
    updateRecord := fun _ _ => { status := 200 }
    createRecord := fun _ _ => { status := 200 } }

/-- C8 (witness): a record whose `AccountId` is an external-id key holding an
unresolvable nested reference makes the per-record processing error. -/
theorem c8_lookup_exhaustion_witness :
    process_item clC8 "Contact" ["AccountId"]
        [("AccountId", JVal.obj [("External_Id__c", JVal.s "X1")])] =
      Except.error "StopIteration" :=
  c8_lookup_exhaustion clC8 "Contact" ["AccountId"] "AccountId"
    "External_Id__c" (JVal.s "X1") [] (by decide) rfl

/-! ### C9 — the submitted payload is the original record -/

/-- C9 (confirmed): the reconciler never changes the input record — the
resolved copy is used only for the matching queries, and whatever branch is
taken, the payload serialized for the update or create submission is the
original record as it was on entry. -/
theorem c9_payload_is_original (client : Client) (sobjectName : String)
    (external_ids : List String) (item : Record) (sub : Submission)
    (h : process_item client sobjectName external_ids item = Except.ok sub) :
    sub.payload = item :=
  processItem_ok_payload client sobjectName external_ids item sub h

/-- Client for the C9 witness. -/
def clC9 : Client :=
  { queryAll := fun _ => []
    updateRecord := fun _ _ => { status := 200 }
    createRecord := fun _ _ => { status := 200 } }

/-- Record for the C9 witness. -/
def itemC9 : Record := [("Email__c", JVal.s "a@b.c")]

/-- Submission produced for the C9 witness record. -/
def subC9 : Submission :=
  (process_item clC9 "Contact" ["Email__c"] itemC9).toOption.getD
    { action := .createAct "", payload := [], outcome := .success }

/-- C9 (witness): the concrete witness record is submitted unchanged. -/
theorem c9_payload_is_original_witness :
    process_item clC9 "Contact" ["Email__c"] itemC9 = Except.ok subC9 ∧
    subC9.payload = itemC9 :=
  ⟨rfl, c9_payload_is_original clC9 "Contact" ["Email__c"] itemC9 subC9 rfl⟩

/-! ### C3 — nested-reference resolution scope -/

/-- Record for the C3 counterexample: an external-id key and a nested
foreign-key reference. -/
def itemC3 : Record :=
  [("Email__c", JVal.s "a@b.c"),
   ("AccountId", JVal.obj [("External_Id__c", JVal.s "X1")])]

/-- Client for the C3 counterexample: the nested reference resolves to
`ACC1`, and the match query over the resolved copy finds an existing
`Contact`. -/
def clC3 : Client :=
  { queryAll := fun q =>
      if q = idLookupQuery "AccountId" "External_Id__c" (JVal.s "X1") then
        [{ id := "ACC1", url := "/services/data/v41.0/sobjects/Account/ACC1" }]
      else if q = matchQuery "Contact" "Email__c"
          [("Email__c", JVal.s "a@b.c"), ("AccountId", JVal.s "ACC1")] then
        [{ id := "C1", url := "/services/data/v41.0/sobjects/Contact/C1" }]
      else []
    updateRecord := fun _ _ => { status := 200 }
    createRecord := fun _ _ => { status := 200 } }

/-- C3 (counterexample): the claim says the nested reference is resolved to
the matched remote identifier before any submission of the record.  For a
record with an external-id key the resolver does find `ACC1` and the update
branch is taken, yet the serialized payload is the original record, still
carrying the unresolved nested mapping — not the resolved identifier. -/
theorem c3_nested_resolution_cex :
    (process_item clC3 "Contact" ["Email__c"] itemC3).map Submission.payload =
      Except.ok itemC3 ∧
    rlookup itemC3 "AccountId" =
      some (JVal.obj [("External_Id__c", JVal.s "X1")]) ∧
    (generate_ids clC3 itemC3).map (fun r => rlookup r "AccountId") =
      Except.ok (some (JVal.s "ACC1")) ∧
    JVal.obj [("External_Id__c", JVal.s "X1")] ≠ JVal.s "ACC1" :=
  ⟨rfl, rfl, rfl, fun h => JVal.noConfusion h⟩

/-- C3 (amended): for a record having at least one external-id key, nested
references are resolved — on a copy used for the matching queries — before
any matching or submission, and a resolution failure (such as an exhausted
lookup) aborts the record's processing with an error and no submission; the
payload of whatever submission does happen is the original record, with its
nested value left unresolved. -/
theorem c3_nested_resolution_amended (client : Client) (sobjectName : String)
    (external_ids : List String) (item : Record)
    (hext : ((item.map Prod.fst).filter
        (fun i => external_ids.contains i)).isEmpty = false) :
    (∀ e, generate_ids client item = Except.error e →
      process_item client sobjectName external_ids item = Except.error e) ∧
    (∀ sub, process_item client sobjectName external_ids item = Except.ok sub →
      sub.payload = item) :=
  ⟨fun e hg =>
    processItem_error_of_generateIds client sobjectName external_ids item e
      hext hg,
   fun sub h =>
    processItem_ok_payload client sobjectName external_ids item sub h⟩

/-- Record for the C3 amended witness. -/
def itemC3w : Record :=
  [("Email__c", JVal.s "a@b.c"),
   ("AccountId", JVal.obj [("External_Id__c", JVal.s "X1")])]

/-- Client for the C3 amended witness: no query ever returns a row, so the
nested lookup exhausts. -/
def clC3w : Client :=
  { queryAll := fun _ => []
    updateRecord := fun _ _ => { status := 200 }
    createRecord := fun _ _ => { status := 200 } }

/-- C3 (amended, witness): the witness record's processing errors instead of
submitting when the nested lookup finds nothing. -/
theorem c3_nested_resolution_amended_witness :
    process_item clC3w "Contact" ["Email__c"] itemC3w =
      Except.error "StopIteration" :=
  (c3_nested_resolution_amended clC3w "Contact" ["Email__c"] itemC3w
    (by decide)).1 "StopIteration" rfl

/-! ### C2 — sort_files ordering

Helper lemmas about `eraseP` against predicates that never pick the same
element, then a characterization of the priority loop under the uniqueness
premises the claim needs. -/

/-- Erasing the first `P`-satisfier does not change a `find?` for a predicate
no `P`-satisfier meets. -/
theorem find?_eraseP_of_disjoint {α : Type} (P Q : α → Bool) :
    ∀ l : List α, (∀ x ∈ l, P x = true → Q x = false) →
      (l.eraseP P).find? Q = l.find? Q
  | [], _ => rfl
  | a :: l, h => by
    by_cases hP : P a = true
    · rw [List.eraseP_cons_of_pos hP,
        List.find?_cons_of_neg _ (by
          rw [h a (List.mem_cons_self a l) hP]; exact Bool.false_ne_true)]
    · rw [List.eraseP_cons_of_neg hP]
      by_cases hQ : Q a = true
      · rw [List.find?_cons_of_pos _ hQ, List.find?_cons_of_pos _ hQ]
      · rw [List.find?_cons_of_neg _ hQ, List.find?_cons_of_neg _ hQ]
        exact find?_eraseP_of_disjoint P Q l
          (fun x hx => h x (List.mem_cons_of_mem a hx))

/-- Erasing the first `P`-satisfier does not change a `filter` by a predicate
no `P`-satisfier meets. -/
theorem filter_eraseP_of_imp {α : Type} (P Q : α → Bool) :
    ∀ l : List α, (∀ x ∈ l, P x = true → Q x = false) →
      (l.eraseP P).filter Q = l.filter Q
  | [], _ => rfl
  | a :: l, h => by
    by_cases hP : P a = true
    · rw [List.eraseP_cons_of_pos hP, List.filter_cons,
        if_neg (by
          rw [h a (List.mem_cons_self a l) hP]; exact Bool.false_ne_true)]
    · rw [List.eraseP_cons_of_neg hP, List.filter_cons, List.filter_cons,
        filter_eraseP_of_imp P Q l (fun x hx => h x (List.mem_cons_of_mem a hx))]

/-- A list of length at most one containing `x` is exactly `[x]`. -/
theorem eq_singleton_of_mem_of_length_le_one {α : Type} {l : List α} {x : α}
    (hx : x ∈ l) (hlen : l.length ≤ 1) : l = [x] := by
  match l with
  | [] => cases hx
  | [a] =>
    have : x = a := by simpa using hx
    rw [this]
  | a :: b :: t => simp at hlen

/-- Characterization of the priority loop when every priority name matches at
most one file and every file matches at most one priority name: the promoted
files are, per priority in order, the unique file containing it, and the
remaining list is exactly the files containing no priority name. -/
theorem sortFilesLoop_spec :
    ∀ (ps files acc : List String),
      (∀ p ∈ ps, (files.filter (fun f => isSubstr p f)).length ≤ 1) →
      (∀ f ∈ files, (ps.filter (fun q => isSubstr q f)).length ≤ 1) →
      sortFilesLoop ps files acc =
        (files.filter (fun f => !(ps.any (fun q => isSubstr q f))),
         acc ++ ps.filterMap (fun q => files.find? (fun f => isSubstr q f)))
  | [], files, acc, _, _ => by
    simp [sortFilesLoop]
  | p :: ps, files, acc, h1, h2 => by
    cases hf : files.find? (fun f => isSubstr p f) with
    | none =>
      have hnone : ∀ x ∈ files, isSubstr p x = false := by
        intro x hx
        simpa using List.find?_eq_none.mp hf x hx
      have h1' : ∀ q ∈ ps, (files.filter (fun f => isSubstr q f)).length ≤ 1 :=
        fun q hq => h1 q (List.mem_cons_of_mem p hq)
      have h2' : ∀ f ∈ files, (ps.filter (fun q => isSubstr q f)).length ≤ 1 := by
        intro f hfm
        have hle := h2 f hfm
        rw [List.filter_cons] at hle
        split at hle
        · simp only [List.length_cons] at hle
          omega
        · exact hle
      have hfil : files.filter (fun f => !((p :: ps).any (fun q => isSubstr q f))) =
          files.filter (fun f => !(ps.any (fun q => isSubstr q f))) :=
        List.filter_congr (fun x hx => by simp [List.any_cons, hnone x hx])
      have hfm : (p :: ps).filterMap (fun q => files.find? (fun f => isSubstr q f)) =
          ps.filterMap (fun q => files.find? (fun f => isSubstr q f)) := by
        simp [List.filterMap_cons, hf]
      simp only [sortFilesLoop, hf]
      rw [sortFilesLoop_spec ps files acc h1' h2', hfil, hfm]
    | some f0 =>
      have hmem : f0 ∈ files := List.mem_of_find?_eq_some hf
      have hpf0 : isSubstr p f0 = true := List.find?_some hf
      have hfilterEq : files.filter (fun f => isSubstr p f) = [f0] :=
        eq_singleton_of_mem_of_length_le_one
          (List.mem_filter.mpr ⟨hmem, hpf0⟩) (h1 p (List.mem_cons_self p ps))
      have honly : ∀ x ∈ files, isSubstr p x = true → x = f0 := by
        intro x hx hpx
        have hxin : x ∈ files.filter (fun f => isSubstr p f) :=
          List.mem_filter.mpr ⟨hx, hpx⟩
        rw [hfilterEq] at hxin
        simpa using hxin
      have hf0ps : ∀ q ∈ ps, isSubstr q f0 = false := by
        intro q hq
        have hlen := h2 f0 hmem
        rw [List.filter_cons, if_pos hpf0] at hlen
        simp only [List.length_cons] at hlen
        have hnil : ps.filter (fun q => isSubstr q f0) = [] :=
          List.length_eq_zero.mp (by omega)
        cases hqb : isSubstr q f0 with
        | false => rfl
        | true =>
          have : q ∈ ps.filter (fun q => isSubstr q f0) :=
            List.mem_filter.mpr ⟨hq, hqb⟩
          rw [hnil] at this
          cases this
      have hdisj : ∀ q ∈ ps, ∀ x ∈ files,
          isSubstr p x = true → isSubstr q x = false := by
        intro q hq x hx hpx
        rw [honly x hx hpx]
        exact hf0ps q hq
      have herasedSub : (files.eraseP (fun f => isSubstr p f)).Sublist files :=
        List.eraseP_sublist files
      have h1' : ∀ q ∈ ps,
          ((files.eraseP (fun f => isSubstr p f)).filter
            (fun f => isSubstr q f)).length ≤ 1 :=
        fun q hq =>
          le_trans (List.Sublist.length_le (List.Sublist.filter _ herasedSub))
            (h1 q (List.mem_cons_of_mem p hq))
      have h2' : ∀ f ∈ files.eraseP (fun f => isSubstr p f),
          (ps.filter (fun q => isSubstr q f)).length ≤ 1 := by
        intro f hfm'
        have hle := h2 f (herasedSub.subset hfm')
        rw [List.filter_cons] at hle
        split at hle
        · simp only [List.length_cons] at hle
          omega
        · exact hle
      have herasedP : ∀ x ∈ files.eraseP (fun f => isSubstr p f),
          isSubstr p x = false := by
        obtain ⟨a, l₁, l₂, hl₁, hpa, hsplit, herase⟩ :=
          List.exists_of_eraseP hmem hpf0
        have hfl : files.filter (fun f => isSubstr p f) =
            a :: l₂.filter (fun f => isSubstr p f) := by
          rw [hsplit, List.filter_append, List.filter_cons, if_pos hpa,
            List.filter_eq_nil_iff.mpr hl₁]
          rfl
        rw [hfilterEq] at hfl
        have hl₂ : l₂.filter (fun f => isSubstr p f) = [] :=
          (List.cons.injEq _ _ _ _ ▸ hfl).2.symm
        intro x hx
        rw [herase] at hx
        rcases List.mem_append.mp hx with hx1 | hx2
        · simpa using hl₁ x hx1
        · cases hxb : isSubstr p x with
          | false => rfl
          | true =>
            have : x ∈ l₂.filter (fun f => isSubstr p f) :=
              List.mem_filter.mpr ⟨hx2, hxb⟩
            rw [hl₂] at this
            cases this
      have hfindEq : ∀ q ∈ ps,
          (files.eraseP (fun f => isSubstr p f)).find? (fun f => isSubstr q f) =
            files.find? (fun f => isSubstr q f) :=
        fun q hq =>
          find?_eraseP_of_disjoint _ _ files (fun x hx hpx => hdisj q hq x hx hpx)
      have hfm : ps.filterMap (fun q =>
            (files.eraseP (fun f => isSubstr p f)).find?
              (fun f => isSubstr q f)) =
          ps.filterMap (fun q => files.find? (fun f => isSubstr q f)) :=
        List.filterMap_congr (fun q hq => hfindEq q hq)
      have hfil1 : (files.eraseP (fun f => isSubstr p f)).filter
            (fun f => !(ps.any (fun q => isSubstr q f))) =
          (files.eraseP (fun f => isSubstr p f)).filter
            (fun f => !((p :: ps).any (fun q => isSubstr q f))) :=
        List.filter_congr (fun x hx => by
          simp [List.any_cons, herasedP x hx])
      have hfil2 : (files.eraseP (fun f => isSubstr p f)).filter
            (fun f => !((p :: ps).any (fun q => isSubstr q f))) =
          files.filter (fun f => !((p :: ps).any (fun q => isSubstr q f))) :=
        filter_eraseP_of_imp _ _ files (fun x hx hpx => by
          simp [List.any_cons, hpx])
      have hfmCons : (p :: ps).filterMap
            (fun q => files.find? (fun f => isSubstr q f)) =
          f0 :: ps.filterMap (fun q => files.find? (fun f => isSubstr q f)) := by
        simp [List.filterMap_cons, hf]
      simp only [sortFilesLoop, hf]
      rw [sortFilesLoop_spec ps (files.eraseP (fun f => isSubstr p f))
        (acc ++ [f0]) h1' h2', hfm, hfil1, hfil2, hfmCons, List.append_assoc]
      rfl

/-- C2 (counterexample): the claim says every file whose name contains a
priority name precedes every file containing none.  When two files contain
the same priority name, only the first is promoted: with files
`["X.json", "Account1.json", "Account2.json"]` and priority `["Account"]`,
`Account2.json` — which contains `Account` — ends up after `X.json`, which
contains no priority name. -/
theorem c2_sort_files_cex :
    sort_files ["X.json", "Account1.json", "Account2.json"] ["Account"] =
      ["Account1.json", "X.json", "Account2.json"] ∧
    isSubstr "Account" "Account2.json" = true ∧
    isSubstr "Account" "X.json" = false := by
  refine ⟨?_, by decide, by decide⟩
  rfl

/-- C2 (amended): `sort_files` promotes, for each priority name in list
order, only the first file containing it.  Under the premises that each
priority name occurs in at most one file and each file contains at most one
priority name — true of the conventional one-file-per-object layout — the
result is the promoted files in priority order followed by the files
containing no priority name in their original relative order, which yields
the claimed `Account, Contact, Opportunity` example. -/
theorem c2_sort_files_amended (files priorities : List String)
    (h1 : ∀ p ∈ priorities, (files.filter (fun f => isSubstr p f)).length ≤ 1)
    (h2 : ∀ f ∈ files, (priorities.filter (fun q => isSubstr q f)).length ≤ 1) :
    sort_files files priorities =
      priorities.filterMap (fun q => files.find? (fun f => isSubstr q f)) ++
        files.filter (fun f => !(priorities.any (fun q => isSubstr q f))) := by
  have hspec := sortFilesLoop_spec priorities files [] h1 h2
  simp only [sort_files, hspec]
  congr 1
  have hcontains : ∀ f ∈ files.filter
        (fun f => !(priorities.any (fun q => isSubstr q f))),
      (priorities.filterMap
        (fun q => files.find? (fun f => isSubstr q f))).contains f = false := by
    intro f hf
    obtain ⟨-, hnot⟩ := List.mem_filter.mp hf
    have hall : ∀ q ∈ priorities, isSubstr q f = false := by
      intro q hq
      have := List.any_eq_false.mp (by simpa using hnot) q hq
      simpa using this
    cases hc : (priorities.filterMap
        (fun q => files.find? (fun f => isSubstr q f))).contains f with
    | false => rfl
    | true =>
      obtain ⟨q, hq, hfind⟩ :=
        List.mem_filterMap.mp (List.elem_iff.mp hc)
      have := List.find?_some hfind
      rw [hall q hq] at this
      cases this
  calc (files.filter (fun f => !(priorities.any (fun q => isSubstr q f)))).filter
        (fun f => !((priorities.filterMap
          (fun q => files.find? (fun f => isSubstr q f))).contains f))
      = (files.filter
          (fun f => !(priorities.any (fun q => isSubstr q f)))).filter
          (fun _ => true) :=
        List.filter_congr (fun x hx => by rw [hcontains x hx]; rfl)
    _ = files.filter (fun f => !(priorities.any (fun q => isSubstr q f))) :=
        List.filter_true _

/-- C2 (amended, witness): the spec's concrete example — priority files come
first in priority-list order, the rest keep their order. -/
theorem c2_sort_files_amended_witness :
    sort_files ["Contact.json", "Opportunity.json", "Account.json"]
        ["Account", "Contact"] =
      ["Account.json", "Contact.json", "Opportunity.json"] :=
  (c2_sort_files_amended ["Contact.json", "Opportunity.json", "Account.json"]
      ["Account", "Contact"] (by decide) (by decide)).trans (by decide)

/-! ### Metadata operation lemmas (for C6 and C10) -/

theorem getKey_updKey_self : ∀ (e : MEntry) (k : String) (v : MVal),
    getKey (updKey e k v) k = some v
  | [], k, v => by simp [updKey, getKey]
  | (k0, v0) :: rest, k, v => by
    by_cases h : k0 = k
    · simp [updKey, h, getKey]
    · simp [updKey, h, getKey, getKey_updKey_self rest k v]

theorem getKey_updKey_other : ∀ (e : MEntry) (k k' : String) (v : MVal),
    k' ≠ k → getKey (updKey e k v) k' = getKey e k'
  | [], k, k', v, h => by simp [updKey, getKey, Ne.symm h]
  | (k0, v0) :: rest, k, k', v, h => by
    by_cases h0 : k0 = k
    · subst h0
      simp [updKey, getKey, Ne.symm h]
    · simp [updKey, h0, getKey, getKey_updKey_other rest k k' v h]

theorem getKey_delKey_other : ∀ (e : MEntry) (k k' : String),
    k' ≠ k → getKey (delKey e k) k' = getKey e k'
  | [], _, _, _ => rfl
  | (k0, v0) :: rest, k, k', h => by
    by_cases h0 : k0 = k
    · subst h0
      simp [delKey, getKey, Ne.symm h]
    · simp [delKey, h0, getKey, getKey_delKey_other rest k k' h]

theorem getKey_eq_none_of_not_mem : ∀ (e : MEntry) (k : String),
    k ∉ e.map Prod.fst → getKey e k = none
  | [], _, _ => rfl
  | (k0, v0) :: rest, k, h => by
    have h0 : k0 ≠ k := by
      intro hc
      exact h (by simp [hc])
    simp only [getKey, if_neg h0]
    exact getKey_eq_none_of_not_mem rest k (fun hc => h (by simp [hc]))

theorem getKey_delKey_self : ∀ (e : MEntry) (k : String),
    (e.map Prod.fst).Nodup → getKey (delKey e k) k = none
  | [], _, _ => rfl
  | (k0, v0) :: rest, k, h => by
    rw [List.map_cons] at h
    have hnd := List.nodup_cons.mp h
    by_cases h0 : k0 = k
    · subst h0
      simp only [delKey, if_pos rfl]
      exact getKey_eq_none_of_not_mem rest k0 hnd.1
    · simp [delKey, h0, getKey, getKey_delKey_self rest k hnd.2]

theorem mget_mwrite_self : ∀ (m : Mdata) (c : Breadcrumb) (k : String) (v : MVal),
    mget (mwrite m c k v) c k = some v
  | [], c, k, v => by simp [mwrite, mget, getKey]
  | (c0, e0) :: rest, c, k, v => by
    by_cases h : c0 = c
    · simp [mwrite, h, mget, getKey_updKey_self]
    · simp [mwrite, h, mget, mget_mwrite_self rest c k v]

theorem mget_mwrite_other :
    ∀ (m : Mdata) (c c' : Breadcrumb) (k k' : String) (v : MVal),
      c' ≠ c ∨ k' ≠ k → mget (mwrite m c k v) c' k' = mget m c' k'
  | [], c, c', k, k', v, h => by
    rcases h with h | h
    · simp [mwrite, mget, Ne.symm h]
    · by_cases hc : c = c'
      · simp [mwrite, mget, hc, getKey, Ne.symm h]
      · simp [mwrite, mget, hc]
  | (c0, e0) :: rest, c, c', k, k', v, h => by
    by_cases h0 : c0 = c
    · subst h0
      rcases h with h | h
      · simp [mwrite, mget, Ne.symm h]
      · by_cases hc : c0 = c'
        · simp [mwrite, mget, hc, getKey_updKey_other e0 k k' v h]
        · simp [mwrite, mget, hc]
    · by_cases hc : c0 = c'
      · subst hc
        simp [mwrite, mget, h0]
      · simp [mwrite, mget, h0, hc,
          mget_mwrite_other rest c c' k k' v h]

theorem mget_mdelete_other :
    ∀ (m : Mdata) (c c' : Breadcrumb) (k k' : String),
      c' ≠ c ∨ k' ≠ k → mget (mdelete m c k) c' k' = mget m c' k'
  | [], _, _, _, _, _ => rfl
  | (c0, e0) :: rest, c, c', k, k', h => by
    by_cases h0 : c0 = c
    · subst h0
      rcases h with h | h
      · simp [mdelete, mget, Ne.symm h]
      · by_cases hc : c0 = c'
        · simp [mdelete, mget, hc, getKey_delKey_other e0 k k' h]
        · simp [mdelete, mget, hc]
    · by_cases hc : c0 = c'
      · subst hc
        simp [mdelete, mget, h0]
      · simp [mdelete, mget, h0, hc, mget_mdelete_other rest c c' k k' h]

theorem mdataWF_cons {c0 : Breadcrumb} {e0 : MEntry} {rest : Mdata}
    (h : MdataWF ((c0, e0) :: rest)) :
    MdataWF rest ∧ (e0.map Prod.fst).Nodup ∧ c0 ∉ rest.map Prod.fst := by
  obtain ⟨hnd, hinner⟩ := h
  simp only [List.map_cons, List.nodup_cons] at hnd
  exact ⟨⟨hnd.2, fun ce hce => hinner ce (List.mem_cons_of_mem _ hce)⟩,
    hinner (c0, e0) (List.mem_cons_self _ _), hnd.1⟩

theorem mget_mdelete_self :
    ∀ (m : Mdata) (c : Breadcrumb) (k : String),
      MdataWF m → mget (mdelete m c k) c k = none
  | [], _, _, _ => rfl
  | (c0, e0) :: rest, c, k, h => by
    obtain ⟨hrest, he0, hc0⟩ := mdataWF_cons h
    by_cases h0 : c0 = c
    · subst h0
      simp [mdelete, mget, getKey_delKey_self e0 k he0]
    · simp [mdelete, mget, h0, mget_mdelete_self rest c k hrest]

/-! WF preservation -/

theorem updKey_map_fst : ∀ (e : MEntry) (k : String) (v : MVal),
    (updKey e k v).map Prod.fst =
      if k ∈ e.map Prod.fst then e.map Prod.fst else e.map Prod.fst ++ [k]
  | [], k, v => by simp [updKey]
  | (k0, v0) :: rest, k, v => by
    by_cases h : k0 = k
    · subst h
      simp [updKey]
    · simp only [updKey, if_neg h, List.map_cons,
        updKey_map_fst rest k v]
      by_cases hm : k ∈ rest.map Prod.fst
      · simp [hm, Ne.symm h]
      · simp [hm, Ne.symm h]

theorem updKey_nodup {e : MEntry} {k : String} {v : MVal}
    (h : (e.map Prod.fst).Nodup) : ((updKey e k v).map Prod.fst).Nodup := by
  rw [updKey_map_fst]
  by_cases hm : k ∈ e.map Prod.fst
  · simpa [hm] using h
  · simp only [if_neg hm]
    rw [← List.concat_eq_append]
    exact h.concat hm

theorem delKey_map_fst_sublist : ∀ (e : MEntry) (k : String),
    ((delKey e k).map Prod.fst).Sublist (e.map Prod.fst)
  | [], _ => List.Sublist.refl _
  | (k0, v0) :: rest, k => by
    by_cases h : k0 = k
    · simp only [delKey, if_pos h, List.map_cons]
      exact List.sublist_cons_self _ _
    · simp only [delKey, if_neg h, List.map_cons]
      exact List.Sublist.cons₂ _ (delKey_map_fst_sublist rest k)

theorem mwrite_map_fst : ∀ (m : Mdata) (c : Breadcrumb) (k : String) (v : MVal),
    (mwrite m c k v).map Prod.fst =
      if c ∈ m.map Prod.fst then m.map Prod.fst else m.map Prod.fst ++ [c]
  | [], c, k, v => by simp [mwrite]
  | (c0, e0) :: rest, c, k, v => by
    by_cases h : c0 = c
    · subst h
      simp [mwrite]
    · simp only [mwrite, if_neg h, List.map_cons,
        mwrite_map_fst rest c k v]
      by_cases hm : c ∈ rest.map Prod.fst
      · simp [hm, Ne.symm h]
      · simp [hm, Ne.symm h]

theorem mwrite_WF : ∀ {m : Mdata} (c : Breadcrumb) (k : String) (v : MVal),
    MdataWF m → MdataWF (mwrite m c k v) := by
  intro m c k v h
  induction m with
  | nil =>
    refine ⟨by simp [mwrite], ?_⟩
    intro ce hce
    simp only [mwrite, List.mem_singleton] at hce
    subst hce
    simp
  | cons head rest ih =>
    obtain ⟨c0, e0⟩ := head
    obtain ⟨hrest, he0, hc0⟩ := mdataWF_cons h
    by_cases h0 : c0 = c
    · subst h0
      refine ⟨?_, ?_⟩
      · simp only [mwrite, if_pos rfl, List.map_cons]
        exact (List.nodup_cons.mpr ⟨hc0, (mdataWF_cons h).1.1⟩)
      · intro ce hce
        simp only [mwrite, if_pos rfl] at hce
        rcases List.mem_cons.mp hce with hce | hce
        · subst hce
          exact updKey_nodup he0
        · exact hrest.2 ce hce
    · have hw := ih hrest
      refine ⟨?_, ?_⟩
      · simp only [mwrite, if_neg h0, List.map_cons]
        refine List.nodup_cons.mpr ⟨?_, hw.1⟩
        rw [mwrite_map_fst]
        by_cases hm : c ∈ rest.map Prod.fst
        · simpa [hm] using hc0
        · simp only [if_neg hm, List.mem_append, List.mem_singleton]
          rintro (hc | hc)
          · exact hc0 hc
          · exact h0 hc
      · intro ce hce
        simp only [mwrite, if_neg h0] at hce
        rcases List.mem_cons.mp hce with hce | hce
        · subst hce
          exact he0
        · exact hw.2 ce hce

theorem mdelete_WF : ∀ {m : Mdata} (c : Breadcrumb) (k : String),
    MdataWF m → MdataWF (mdelete m c k) := by
  intro m c k h
  induction m with
  | nil => exact h
  | cons head rest ih =>
    obtain ⟨c0, e0⟩ := head
    obtain ⟨hrest, he0, hc0⟩ := mdataWF_cons h
    by_cases h0 : c0 = c
    · subst h0
      refine ⟨?_, ?_⟩
      · simp only [mdelete, if_pos rfl, List.map_cons]
        exact List.nodup_cons.mpr ⟨hc0, hrest.1⟩
      · intro ce hce
        simp only [mdelete, if_pos rfl] at hce
        rcases List.mem_cons.mp hce with hce | hce
        · subst hce
          exact (delKey_map_fst_sublist e0 k).nodup he0
        · exact hrest.2 ce hce
    · have hd := ih hrest
      refine ⟨?_, ?_⟩
      · simp only [mdelete, if_neg h0, List.map_cons]
        refine List.nodup_cons.mpr ⟨?_, hd.1⟩
        intro hc
        have : (mdelete rest c k).map Prod.fst =
            (mdelete rest c k).map Prod.fst := rfl
        have hsub : ((mdelete rest c k).map Prod.fst).Sublist
            (rest.map Prod.fst) := by
          clear * -
          induction rest with
          | nil => exact List.Sublist.refl _
          | cons hd tl ih =>
            obtain ⟨c1, e1⟩ := hd
            by_cases h1 : c1 = c
            · simp only [mdelete, if_pos h1, List.map_cons]
              exact List.Sublist.cons₂ _ (List.Sublist.refl _)
            · simp only [mdelete, if_neg h1, List.map_cons]
              exact List.Sublist.cons₂ _ ih
        exact hc0 (hsub.subset hc)
      · intro ce hce
        simp only [mdelete, if_neg h0] at hce
        rcases List.mem_cons.mp hce with hce | hce
        · subst hce
          exact he0
        · exact hd.2 ce hce

/-! ### C6 and C10 — metadata invariants through generate_schema -/

/-- No field path has an `unsupported` inclusion yet (holds throughout the
per-field loop, which only writes `automatic`, `available` and
`selected-by-default`). -/
def NoUnsup (m : Mdata) : Prop :=
  ∀ p : String,
    mget m ["properties", p] "inclusion" ≠ some (.s "unsupported")

/-- `selected-by-default` is only ever absent or `True` (the program writes
no other value). -/
def SbdOk (m : Mdata) : Prop :=
  ∀ p : String,
    mget m ["properties", p] "selected-by-default" = none ∨
    mget m ["properties", p] "selected-by-default" = some (.b true)

/-- The claimed invariant: an `unsupported` field path carries no
`selected-by-default` annotation. -/
def UnsupClean (m : Mdata) : Prop :=
  ∀ p : String,
    mget m ["properties", p] "inclusion" = some (.s "unsupported") →
    mget m ["properties", p] "selected-by-default" = none

/-- The invariant carried through the per-field loop. -/
def GsInv (m : Mdata) : Prop := MdataWF m ∧ NoUnsup m ∧ SbdOk m

theorem GsInv_mwrite_inclusion {m : Mdata} (x val : String)
    (hval : val ≠ "unsupported") (h : GsInv m) :
    GsInv (mwrite m ["properties", x] "inclusion" (.s val)) := by
  obtain ⟨hwf, hnu, hsbd⟩ := h
  refine ⟨mwrite_WF _ _ _ hwf, ?_, ?_⟩
  · intro p
    by_cases hp : p = x
    · subst hp
      rw [mget_mwrite_self]
      simp [hval]
    · rw [mget_mwrite_other _ _ _ _ _ _ (Or.inl (by simp [hp]))]
      exact hnu p
  · intro p
    rw [mget_mwrite_other _ _ _ _ _ _ (Or.inr (by decide))]
    exact hsbd p

theorem GsInv_mwrite_sbd {m : Mdata} (x : String) (h : GsInv m) :
    GsInv (mwrite m ["properties", x] "selected-by-default" (.b true)) := by
  obtain ⟨hwf, hnu, hsbd⟩ := h
  refine ⟨mwrite_WF _ _ _ hwf, ?_, ?_⟩
  · intro p
    rw [mget_mwrite_other _ _ _ _ _ _ (Or.inr (by decide))]
    exact hnu p
  · intro p
    by_cases hp : p = x
    · subst hp
      rw [mget_mwrite_self]
      exact Or.inr rfl
    · rw [mget_mwrite_other _ _ _ _ _ _ (Or.inl (by simp [hp]))]
      exact hsbd p

theorem stepField_inv (sf : SfClient) (sobject_name : String) (st : GsState)
    (f : Field) (h : GsInv st.mdata) :
    GsInv (stepField sf sobject_name st f).mdata := by
  simp only [stepField, create_property_schema, field_to_property_schema]
  split <;> split <;>
    first
      | exact GsInv_mwrite_sbd f.name
          (GsInv_mwrite_inclusion f.name _ (by decide) h)
      | exact GsInv_mwrite_inclusion f.name _ (by decide) h

theorem schemaLoop_inv (sf : SfClient) (sobject_name : String) :
    ∀ (fs : List Field) (st : GsState), GsInv st.mdata →
      GsInv (schemaLoop sf sobject_name fs st).mdata
  | [], _, h => h
  | f :: fs, st, h =>
    schemaLoop_inv sf sobject_name fs (stepField sf sobject_name st f)
      (stepField_inv sf sobject_name st f h)

/-- The invariant carried through the unsupported-fields loop. -/
def UnsInv (m : Mdata) : Prop := MdataWF m ∧ SbdOk m ∧ UnsupClean m

theorem NoUnsup.toClean {m : Mdata} (h : NoUnsup m) : UnsupClean m :=
  fun p hincl => absurd hincl (h p)

theorem unsStep_inv (prop desc : String) (m : Mdata) (h : UnsInv m) :
    UnsInv (unsStep prop desc m) := by
  obtain ⟨hwf, hsbd, hcl⟩ := h
  simp only [unsStep]
  split
  case isTrue htr =>
    have hm1wf : MdataWF (mdelete m ["properties", prop] "selected-by-default") :=
      mdelete_WF _ _ hwf
    have hm1self :
        mget (mdelete m ["properties", prop] "selected-by-default")
          ["properties", prop] "selected-by-default" = none :=
      mget_mdelete_self m _ _ hwf
    refine ⟨mwrite_WF _ _ _ (mwrite_WF _ _ _ hm1wf), ?_, ?_⟩
    · intro p
      rw [mget_mwrite_other _ _ _ _ _ _ (Or.inr (by decide)),
        mget_mwrite_other _ _ _ _ _ _ (Or.inr (by decide))]
      by_cases hp : p = prop
      · subst hp
        exact Or.inl hm1self
      · rw [mget_mdelete_other _ _ _ _ _ (Or.inl (by simp [hp]))]
        exact hsbd p
    · intro p hincl
      rw [mget_mwrite_other _ _ _ _ _ _ (Or.inr (by decide)),
        mget_mwrite_other _ _ _ _ _ _ (Or.inr (by decide))]
      by_cases hp : p = prop
      · subst hp
        exact hm1self
      · rw [mget_mdelete_other _ _ _ _ _ (Or.inl (by simp [hp]))]
        apply hcl p
        rw [mget_mwrite_other _ _ _ _ _ _ (Or.inl (by simp [hp])),
          mget_mwrite_other _ _ _ _ _ _ (Or.inl (by simp [hp])),
          mget_mdelete_other _ _ _ _ _ (Or.inl (by simp [hp]))] at hincl
        exact hincl
  case isFalse hfa =>
    refine ⟨mwrite_WF _ _ _ (mwrite_WF _ _ _ hwf), ?_, ?_⟩
    · intro p
      rw [mget_mwrite_other _ _ _ _ _ _ (Or.inr (by decide)),
        mget_mwrite_other _ _ _ _ _ _ (Or.inr (by decide))]
      exact hsbd p
    · intro p hincl
      rw [mget_mwrite_other _ _ _ _ _ _ (Or.inr (by decide)),
        mget_mwrite_other _ _ _ _ _ _ (Or.inr (by decide))]
      by_cases hp : p = prop
      · subst hp
        rcases hsbd p with hn | ht
        · exact hn
        · rw [ht] at hfa
          exact absurd rfl hfa
      · apply hcl p
        rw [mget_mwrite_other _ _ _ _ _ _ (Or.inl (by simp [hp])),
          mget_mwrite_other _ _ _ _ _ _ (Or.inl (by simp [hp]))] at hincl
        exact hincl

theorem unsLoop_inv : ∀ (l : List (String × String)) (m : Mdata),
    UnsInv m → UnsInv (unsLoop l m)
  | [], _, h => h
  | (prop, desc) :: rest, m, h =>
    unsLoop_inv rest (unsStep prop desc m) (unsStep_inv prop desc m h)

theorem rootWrite_inv {m : Mdata} (key : String) (v : MVal)
    (h : MdataWF m ∧ UnsupClean m) :
    MdataWF (mwrite m [] key v) ∧ UnsupClean (mwrite m [] key v) := by
  refine ⟨mwrite_WF _ _ _ h.1, ?_⟩
  intro p hincl
  rw [mget_mwrite_other _ _ _ _ _ _ (Or.inl (by simp))] at hincl
  rw [mget_mwrite_other _ _ _ _ _ _ (Or.inl (by simp))]
  exact h.2 p hincl

theorem GsInv_empty : GsInv ([] : Mdata) :=
  ⟨⟨List.nodup_nil, by simp⟩, fun _ => by simp [mget], fun _ => Or.inl rfl⟩

/-- C6 (confirmed): the metadata `generate_schema` produces is a genuine
two-level dictionary — each field path carries at most one value per key, so
at most one inclusion — and any field whose final inclusion is `unsupported`
carries no `selected-by-default` annotation, whatever the
select-fields-by-default configuration. -/
theorem c6_metadata_invariants (fields : List Field) (sf : SfClient)
    (sobject_name : String) (replication_key : Option String) :
    MdataWF (generate_schema fields sf sobject_name replication_key).mdataList ∧
    (∀ p : String,
      mget (generate_schema fields sf sobject_name replication_key).mdataList
          ["properties", p] "inclusion" = some (.s "unsupported") →
      mget (generate_schema fields sf sobject_name replication_key).mdataList
          ["properties", p] "selected-by-default" = none) := by
  have hloop : GsInv (schemaLoop sf sobject_name fields ⟨[], [], []⟩).mdata :=
    schemaLoop_inv sf sobject_name fields ⟨[], [], []⟩ GsInv_empty
  cases replication_key with
  | none =>
    simp only [generate_schema]
    have h2 := unsLoop_inv
      ((schemaLoop sf sobject_name fields ⟨[], [], []⟩).uns.filter
        (fun p => p.1 ∈ fields.map Field.name))
      (schemaLoop sf sobject_name fields ⟨[], [], []⟩).mdata
      ⟨hloop.1, hloop.2.2, hloop.2.1.toClean⟩
    have h3 := rootWrite_inv "forced-replication-method"
      MVal.forcedFullTableMethod ⟨h2.1, h2.2.2⟩
    have h4 := rootWrite_inv "table-key-properties" (MVal.sl ["Id"]) h3
    exact ⟨h4.1, h4.2⟩
  | some rk =>
    simp only [generate_schema]
    have h1 : GsInv (mwrite
        (schemaLoop sf sobject_name fields ⟨[], [], []⟩).mdata
        ["properties", rk] "inclusion" (.s "automatic")) :=
      GsInv_mwrite_inclusion rk _ (by decide) hloop
    have h2 := unsLoop_inv
      ((schemaLoop sf sobject_name fields ⟨[], [], []⟩).uns.filter
        (fun p => p.1 ∈ fields.map Field.name))
      _ ⟨h1.1, h1.2.2, h1.2.1.toClean⟩
    have h3 := rootWrite_inv "valid-replication-keys" (MVal.sl [rk])
      ⟨h2.1, h2.2.2⟩
    have h4 := rootWrite_inv "table-key-properties" (MVal.sl ["Id"]) h3
    exact ⟨h4.1, h4.2⟩

/-- Configuration for the C6 witness: REST access with select-by-default
on. -/
def sfC6 : SfClient :=
  { apiType := "REST", selectFieldsByDefault := true }

/-- C6 (witness): a json-typed field ends with inclusion `unsupported` and no
`selected-by-default`, although the run selects fields by default. -/
theorem c6_metadata_invariants_witness :
    mget (generate_schema
        [{ name := "Id", ftype := "id" },
         { name := "Payload__c", ftype := "json" }] sfC6 "Widget__c"
        none).mdataList
      ["properties", "Payload__c"] "inclusion" = some (.s "unsupported") ∧
    mget (generate_schema
        [{ name := "Id", ftype := "id" },
         { name := "Payload__c", ftype := "json" }] sfC6 "Widget__c"
        none).mdataList
      ["properties", "Payload__c"] "selected-by-default" = none :=
  ⟨by decide,
   (c6_metadata_invariants
      [{ name := "Id", ftype := "id" },
       { name := "Payload__c", ftype := "json" }] sfC6 "Widget__c" none).2
     "Payload__c" (by decide)⟩

/-! C10 — the replication key's inclusion -/

theorem unsStep_get_other (prop desc : String) (m : Mdata) (p key : String)
    (hp : p ≠ prop) :
    mget (unsStep prop desc m) ["properties", p] key =
      mget m ["properties", p] key := by
  simp only [unsStep]
  rw [mget_mwrite_other _ _ _ _ _ _ (Or.inl (by simp [hp])),
    mget_mwrite_other _ _ _ _ _ _ (Or.inl (by simp [hp]))]
  split
  · exact mget_mdelete_other _ _ _ _ _ (Or.inl (by simp [hp]))
  · rfl

theorem unsLoop_get_not_mem : ∀ (l : List (String × String)) (m : Mdata)
    (p key : String), p ∉ l.map Prod.fst →
    mget (unsLoop l m) ["properties", p] key = mget m ["properties", p] key
  | [], _, _, _, _ => rfl
  | (q, d) :: rest, m, p, key, h => by
    have hq : p ≠ q := fun hc => h (by simp [hc])
    have hr : p ∉ rest.map Prod.fst := fun hc => h (by simp [hc])
    simp only [unsLoop]
    rw [unsLoop_get_not_mem rest _ p key hr, unsStep_get_other q d m p key hq]

theorem unsLoop_get_mem_inclusion : ∀ (l : List (String × String)) (m : Mdata)
    (p : String), p ∈ l.map Prod.fst →
    mget (unsLoop l m) ["properties", p] "inclusion" =
      some (.s "unsupported")
  | [], _, _, h => by cases h
  | (q, d) :: rest, m, p, h => by
    by_cases hr : p ∈ rest.map Prod.fst
    · simp only [unsLoop]
      exact unsLoop_get_mem_inclusion rest _ p hr
    · have hpq : p = q := by
        rw [List.map_cons] at h
        rcases List.mem_cons.mp h with h1 | h1
        · exact h1
        · exact absurd h1 hr
      subst hpq
      simp only [unsLoop]
      rw [unsLoop_get_not_mem rest _ p "inclusion" hr]
      simp only [unsStep]
      exact mget_mwrite_self _ _ _ _

/-- C10 (confirmed): when a replication key resolves, `generate_schema`
writes inclusion `automatic` for it after the per-field loop — even when the
field is not `Id` — and when the same field is also among the (filtered)
unsupported fields, the later unsupported pass overrides that inclusion with
`unsupported`. -/
theorem c10_replication_key_inclusion (fields : List Field) (sf : SfClient)
    (sobject_name rk : String) :
    (rk ∉ ((schemaLoop sf sobject_name fields ⟨[], [], []⟩).uns.filter
        (fun p => p.1 ∈ fields.map Field.name)).map Prod.fst →
      mget (generate_schema fields sf sobject_name (some rk)).mdataList
        ["properties", rk] "inclusion" = some (.s "automatic")) ∧
    (rk ∈ ((schemaLoop sf sobject_name fields ⟨[], [], []⟩).uns.filter
        (fun p => p.1 ∈ fields.map Field.name)).map Prod.fst →
      mget (generate_schema fields sf sobject_name (some rk)).mdataList
        ["properties", rk] "inclusion" = some (.s "unsupported")) := by
  constructor
  · intro hnm
    simp only [generate_schema]
    rw [mget_mwrite_other _ _ _ _ _ _ (Or.inl (by simp)),
      mget_mwrite_other _ _ _ _ _ _ (Or.inl (by simp)),
      unsLoop_get_not_mem _ _ _ _ hnm, mget_mwrite_self]
  · intro hm
    simp only [generate_schema]
    rw [mget_mwrite_other _ _ _ _ _ _ (Or.inl (by simp)),
      mget_mwrite_other _ _ _ _ _ _ (Or.inl (by simp)),
      unsLoop_get_mem_inclusion _ _ _ hm]

/-- Configuration for the C10 witness. -/
def sfC10 : SfClient :=
  { apiType := "REST", selectFieldsByDefault := true }

/-- C10 (witness): `SystemModstamp` — not `Id`, not unsupported — ends with
inclusion `automatic` as the resolved replication key. -/
theorem c10_replication_key_inclusion_witness :
    mget (generate_schema
        [{ name := "Id", ftype := "id" },
         { name := "SystemModstamp", ftype := "datetime" }] sfC10 "Account"
        (some "SystemModstamp")).mdataList
      ["properties", "SystemModstamp"] "inclusion" = some (.s "automatic") :=
  (c10_replication_key_inclusion
      [{ name := "Id", ftype := "id" },
       { name := "SystemModstamp", ftype := "datetime" }] sfC10 "Account"
      "SystemModstamp").1 (by decide)

/-! ### C7 — tag-object suppression in discovery -/

/-- The caching phase never touches the entries. -/
theorem tagPhase_entries (sf : SfClient) (n : String) (st st' : DiscoverState)
    (h : tagPhase sf n st = Except.ok st') : st'.entries = st.entries := by
  simp only [tagPhase] at h
  split at h
  · cases h
    rfl
  · split at h
    · split at h
      · split at h
        · cases h
          rfl
        · exact Except.noConfusion h
      · cases h
        rfl
    · cases h
      rfl

/-- One discovery step either keeps the entry streams or appends the
processed object name. -/
theorem discoverStep_streams (sf : SfClient) (n : String) (st st' : DiscoverState)
    (h : discoverStep sf n st = Except.ok st') :
    st'.entries.map SchemaEntry.stream = st.entries.map SchemaEntry.stream ∨
    st'.entries.map SchemaEntry.stream =
      st.entries.map SchemaEntry.stream ++ [n] := by
  simp only [discoverStep] at h
  split at h
  · cases h
    exact Or.inl rfl
  · cases htag : tagPhase sf n st with
    | error e =>
      simp only [htag] at h
      exact Except.noConfusion h
    | ok st1 =>
      simp only [htag] at h
      have hent := tagPhase_entries sf n st st1 htag
      by_cases hid : ((sf.describeSObject n).fields.filter
          (fun f => f.name = "Id")).isEmpty = true
      · rw [if_pos hid] at h
        cases h
        exact Or.inl (by rw [hent])
      · rw [if_neg hid] at h
        cases h
        refine Or.inr ?_
        simp only [List.map_append, hent, List.map_cons, List.map_nil]
        rfl

/-- The streams accumulated by the discovery loop extend the starting streams
by a sublist of the processed names, in order. -/
theorem discoverLoop_streams (sf : SfClient) :
    ∀ (names : List String) (st st' : DiscoverState),
      discoverLoop sf names st = Except.ok st' →
      (st'.entries.map SchemaEntry.stream).Sublist
        (st.entries.map SchemaEntry.stream ++ names)
  | [], st, st', h => by
    cases h
    simp
  | n :: names, st, st', h => by
    cases hstep : discoverStep sf n st with
    | error e =>
      simp only [discoverLoop, hstep] at h
      exact Except.noConfusion h
    | ok st1 =>
      simp only [discoverLoop, hstep] at h
      have hrec := discoverLoop_streams sf names st1 st' h
      rcases discoverStep_streams sf n st st1 hstep with he | he
      · rw [he] at hrec
        refine hrec.trans (List.Sublist.append_left ?_ _)
        exact List.sublist_cons_self n names
      · rw [he, List.append_assoc, List.singleton_append] at hrec
        exact hrec

theorem charListLe_total : ∀ as bs : List Char,
    charListLe as bs = true ∨ charListLe bs as = true
  | [], _ => Or.inl rfl
  | _ :: _, [] => Or.inr rfl
  | a :: as, b :: bs => by
    by_cases h : a.toNat = b.toNat
    · rcases charListLe_total as bs with hl | hr
      · exact Or.inl (by simp [charListLe, h, hl])
      · exact Or.inr (by simp [charListLe, h.symm, hr])
    · by_cases hlt : a.toNat < b.toNat
      · exact Or.inl (by simp [charListLe, h, hlt])
      · refine Or.inr ?_
        have h' : ¬ b.toNat = a.toNat := fun hc => h hc.symm
        have hlt' : b.toNat < a.toNat := by omega
        simp [charListLe, h', hlt']

theorem charListLe_trans : ∀ as bs cs : List Char,
    charListLe as bs = true → charListLe bs cs = true →
    charListLe as cs = true
  | [], _, _, _, _ => rfl
  | _ :: _, [], _, h1, _ => by simp [charListLe] at h1
  | _ :: _, _ :: _, [], _, h2 => by simp [charListLe] at h2
  | a :: as, b :: bs, c :: cs, h1, h2 => by
    simp only [charListLe] at h1 h2 ⊢
    by_cases hab : a.toNat = b.toNat
    · rw [if_pos hab] at h1
      by_cases hbc : b.toNat = c.toNat
      · rw [if_pos hbc] at h2
        rw [if_pos (hab.trans hbc)]
        exact charListLe_trans as bs cs h1 h2
      · rw [if_neg hbc, decide_eq_true_eq] at h2
        rw [if_neg (by omega), decide_eq_true_eq]
        omega
    · rw [if_neg hab, decide_eq_true_eq] at h1
      by_cases hbc : b.toNat = c.toNat
      · rw [if_neg (by omega), decide_eq_true_eq]
        omega
      · rw [if_neg hbc, decide_eq_true_eq] at h2
        rw [if_neg (by omega), decide_eq_true_eq]
        omega

instance : IsTotal String (fun a b => pyStrLe a b = true) :=
  ⟨fun a b => charListLe_total a.data b.data⟩

instance : IsTrans String (fun a b => pyStrLe a b = true) :=
  ⟨fun a b c => charListLe_trans a.data b.data c.data⟩

/-- C7 (amended): the discovery output's stream names are lexicographically
sorted, and no stream equals a tag name recorded in the final base-to-tag
map for a base recorded as a custom-setting object.  In particular a
`Foo__Tag` that is itself a non-custom-setting tag whose `Item` relationship
first references a custom-setting `Foo`, and that no later-described tag
displaces from the map, is suppressed. -/
theorem c7_tag_suppression_amended (sf : SfClient) (streams : List String)
    (h : (do_discover sf).map (fun es => es.map SchemaEntry.stream) =
      Except.ok streams) :
    streams.Sorted (fun a b => pyStrLe a b = true) ∧
    (∀ st, discoverScan sf = Except.ok st →
      ∀ foo tag, foo ∈ st.customSettings → lookupRef st.tagRefs foo = some tag →
        tag ∉ streams) := by
  cases hscan : discoverScan sf with
  | error e =>
    rw [do_discover, hscan] at h
    exact Except.noConfusion h
  | ok st0 =>
    rw [do_discover, hscan] at h
    simp only [Except.map] at h
    have hstreams : streams =
        (st0.entries.filter (fun e =>
          ¬ e.stream ∈ st0.customSettings.filterMap
            (fun f => lookupRef st0.tagRefs f))).map SchemaEntry.stream :=
      (Except.ok.inj h).symm
    constructor
    · simp only [discoverScan] at hscan
      split at hscan
      · exact Except.noConfusion hscan
      · have hsub := discoverLoop_streams sf
          (List.insertionSort (fun a b => pyStrLe a b = true)
            (pyDedup sf.sobjectNames)) {} st0 hscan
        simp only [DiscoverState.entries, List.map_nil, List.nil_append] at hsub
        have hsorted : (List.insertionSort (fun a b => pyStrLe a b = true)
            (pyDedup sf.sobjectNames)).Sorted
            (fun a b => pyStrLe a b = true) := List.sorted_insertionSort _ _
        have hfil : ((st0.entries.filter (fun e =>
            ¬ e.stream ∈ st0.customSettings.filterMap
              (fun f => lookupRef st0.tagRefs f))).map
            SchemaEntry.stream).Sublist
            (st0.entries.map SchemaEntry.stream) :=
          List.Sublist.map _ (List.filter_sublist _)
        rw [hstreams]
        exact List.Pairwise.sublist (hfil.trans hsub) hsorted
    · intro st hst foo tag hfoo hlk
      cases hst
      intro hmem
      rw [hstreams] at hmem
      obtain ⟨e, hemem, hestream⟩ := List.mem_map.mp hmem
      obtain ⟨-, hepred⟩ := List.mem_filter.mp hemem
      rw [decide_eq_true_eq] at hepred
      apply hepred
      rw [hestream]
      exact List.mem_filterMap.mpr ⟨foo, hfoo, hlk⟩

/-- The `Id` field used by the C7 instances. -/
def idFieldC7 : Field := { name := "Id", ftype := "id" }

/-- The `Item` relationship field of the C7 tag object, referencing `Foo`. -/
def itemFieldC7 : Field :=
  { name := "ItemId", ftype := "reference", relationshipName := some "Item",
    referenceTo := ["Foo"] }

/-- Instance for the C7 counterexample: `Foo` is a custom setting and
`Foo__Tag` — also flagged as a custom setting — carries an `Item`
relationship referencing `Foo`. -/
def sfC7bad : SfClient :=
  { apiType := "REST", selectFieldsByDefault := true,
    sobjectNames := ["Foo", "Foo__Tag"],
    describeSObject := fun n =>
      if n = "Foo" then { customSetting := true, fields := [idFieldC7] }
      else if n = "Foo__Tag" then
        { customSetting := true, fields := [idFieldC7, itemFieldC7] }
      else {} }

/-- C7 (counterexample): the claim demands that whenever `Foo` is marked
custom-setting and `Foo__Tag` carries an `Item` relationship referencing
`Foo`, no `Foo__Tag` entry appears.  Because the loop checks `customSetting`
first (`elif` at source line 212), a `Foo__Tag` that is itself flagged as a
custom setting is never recorded in the tag map, so its entry survives. -/
theorem c7_tag_suppression_cex :
    (sfC7bad.describeSObject "Foo").customSetting = true ∧
    ((sfC7bad.describeSObject "Foo__Tag").fields.find?
        (fun f => f.relationshipName = some "Item")).map Field.referenceTo =
      some ["Foo"] ∧
    (do_discover sfC7bad).map (fun es => es.map SchemaEntry.stream) =
      Except.ok ["Foo", "Foo__Tag"] :=
  ⟨rfl, rfl, rfl⟩

/-- Instance for the C7 amended witness: as above but `Foo__Tag` is an
ordinary tag object. -/
def sfC7ok : SfClient :=
  { apiType := "REST", selectFieldsByDefault := true,
    sobjectNames := ["Foo", "Foo__Tag"],
    describeSObject := fun n =>
      if n = "Foo" then { customSetting := true, fields := [idFieldC7] }
      else if n = "Foo__Tag" then
        { customSetting := false, fields := [idFieldC7, itemFieldC7] }
      else {} }

/-- C7 (amended, witness): on the well-behaved instance the output is the
single sorted stream `Foo`, and `Foo__Tag` is suppressed. -/
theorem c7_tag_suppression_amended_witness :
    (["Foo"] : List String).Sorted (fun a b => pyStrLe a b = true) ∧
    "Foo__Tag" ∉ (["Foo"] : List String) := by
  have h := c7_tag_suppression_amended sfC7ok ["Foo"] rfl
  exact ⟨h.1, h.2 _ rfl "Foo" "Foo__Tag" (by decide) rfl⟩

end TargetSalesforce
